import Mathlib

/-!
Verification development for the cremi file-format library
(`cremi/Annotations.py`, `cremi/io/CremiFile.py`).

The Python code is shallowly embedded: the hierarchical container (h5py /
z5py file) is a record of groups, datasets and attributes keyed by
normalized paths; slash-delimited path strings of the source are
represented by their list of non-empty segments (h5py normalizes
`"//annotations/"` and `"/annotations"` to the same object, so the
segment list is the faithful key).  Python dicts are association lists
whose update replaces the value in place (Python dicts preserve insertion
order and `d[k] = v` keeps the position of an existing key).  Text values
are always produced by `.encode("utf8")` of valid text and decoded back
with `.decode("utf-8")`, so the valid-UTF-8 byte strings that ever occur
are represented by the decoded text they encode, wrapped in `Utf8Bytes`.
Coordinates are only stored and permuted, never computed with, so the
float carrier is irrelevant; we use `Int`.
-/

/-- Association-list lookup, first match wins (Python dict lookup;
keys are unique in every list this development builds). -/
def alookup {α β : Type} [DecidableEq α] (k : α) : List (α × β) → Option β
  | [] => none
  | (a, b) :: t => if a = k then some b else alookup k t

/-- Association-list update: replace the value of an existing key in
place, append a fresh key at the end (Python `d[k] = v` semantics,
which keeps insertion order). -/
def aupd {α β : Type} [DecidableEq α] (k : α) (v : β) : List (α × β) → List (α × β)
  | [] => [(k, v)]
  | (a, b) :: t => if a = k then (k, v) :: t else (a, b) :: aupd k v t

/-- Association-list removal of a key (Python `del d[k]`). -/
def aremove {α β : Type} [DecidableEq α] (k : α) : List (α × β) → List (α × β)
  | [] => []
  | (a, b) :: t => if a = k then t else (a, b) :: aremove k t

/-- Coordinate carrier: locations/resolutions/offsets are only stored and
permuted by this library, never computed with arithmetically. -/
abbrev Coord := Int

/-- A coordinate tuple (Python tuple of floats, e.g. a 3-tuple location). -/
abbrev Loc := List Coord

/-- A valid-UTF-8 byte string, represented by the text it decodes to
(all byte strings this library stores come from `str.encode("utf8")`). -/
structure Utf8Bytes where
  decoded : String
deriving DecidableEq, Repr

/-- Python `s.encode("utf8")`. -/
def strEncode (s : String) : Utf8Bytes := ⟨s⟩

/-- Python `b.decode("utf-8")`. -/
def bytesDecode (b : Utf8Bytes) : String := b.decoded


/-- Contents of one dataset, tagged by element kind (uint64 scalars,
variable-length text, coordinate rows, or uint64 pairs). -/
inductive DSData where
  | nats (xs : List Nat)
  | texts (xs : List Utf8Bytes)
  | locs (xs : List Loc)
  | pairs (xs : List (Nat × Nat))
deriving DecidableEq, Repr

/-- Shape of `np.asarray(data)` for the (rectangular) data this library
writes: a flat list has shape `[n]`, a list of d-tuples `[n, d]`. -/
def DSData.shape : DSData → List Nat
  | .nats xs => [xs.length]
  | .texts xs => [xs.length]
  | .locs xs => [xs.length] ++ (match xs.head? with
      | some l => [l.length]
      | none => [])
  | .pairs xs => [xs.length, 2]

def DSData.asNats : DSData → List Nat
  | .nats xs => xs
  | _ => []

def DSData.asTexts : DSData → List Utf8Bytes
  | .texts xs => xs
  | _ => []

def DSData.asLocs : DSData → List Loc
  | .locs xs => xs
  | _ => []

def DSData.asPairs : DSData → List (Nat × Nat)
  | .pairs xs => xs
  | _ => []

/-- An attribute value: either a coordinate tuple or a string. -/
inductive AttrVal where
  | loc (l : Loc)
  | str (s : String)
deriving DecidableEq, Repr

/-- A dataset in the container: element type, optional compression hint,
optional explicit chunk shape (Backend B), and contents. -/
structure Dataset where
  dtype : String
  compression : Option String
  chunks : Option (List Nat)
  data : DSData
deriving DecidableEq, Repr

/-- A normalized container path: the non-empty slash-separated segments
(h5py collapses repeated or trailing slashes, so for example the source
strings `"/annotations/ids"` and `"//annotations/ids/"` both denote the
segment list `["annotations", "ids"]`; the root is `[]`). -/
abbrev HPath := List String

/-- The hierarchical container (an h5py/z5py file): groups, datasets and
attributes, keyed by normalized paths. -/
structure HFile where
  groups : List HPath
  datasets : List (HPath × Dataset)
  attrs : List ((HPath × String) × AttrVal)
deriving DecidableEq, Repr

def HFile.empty : HFile := ⟨[], [], []⟩

/-- Python `name in file` / `name in file[group]`: some object (group or
dataset) exists at the normalized path.  The root always exists. -/
def memberB (f : HFile) (p : HPath) : Bool :=
  decide (p = []) || decide (p ∈ f.groups) || (alookup p f.datasets).isSome

def setAttr (f : HFile) (p : HPath) (name : String) (v : AttrVal) : HFile :=
  { f with attrs := aupd (p, name) v f.attrs }

def getAttr (f : HFile) (p : HPath) (name : String) : Option AttrVal :=
  alookup (p, name) f.attrs

/-- One iteration of the loop in `AbstractCremiFile._create_group`:
`try: self.file.create_group(path) except ValueError: pass` (h5py raises
ValueError when an object already exists at the path). -/
def createGroupTry (f : HFile) (p : HPath) : HFile :=
  if memberB f p then f else { f with groups := f.groups ++ [p] }

/-- The cumulative prefixes visited by `_create_group`'s loop
(`path = "/"; for d in group.split("/"): path += d + "/"`; empty split
parts denote the root, which always exists). -/
def chainPaths (group : HPath) : List HPath :=
  (List.range group.length).map (fun k => group.take (k + 1))

/-- `AbstractCremiFile._create_group`: create every group along the path,
silently ignoring the ones that already exist. -/
def createGroupChain (f : HFile) (group : HPath) : HFile :=
  (chainPaths group).foldl createGroupTry f

/-- h5py / z5py `file.create_dataset`: fails if an object already exists
at the path, otherwise adds the new dataset. -/
def createDatasetPrim (f : HFile) (p : HPath) (data : DSData) (dtype : String)
    (compression : Option String) (chunks : Option (List Nat)) : Except String HFile :=
  if memberB f p then .error "unable to create dataset, name already exists"
  else .ok { f with datasets := f.datasets ++ [(p, ⟨dtype, compression, chunks, data⟩)] }

/-- `AbstractCremiFile._replace_compatible_dataset`:
creates the parent groups (`group = "/".join(path.split("/")[:-1])`,
here `p.dropLast`), then, if an object exists at the path
(`ds_name in self.file[group]`): when it is a dataset with equal dtype
and shape, overwrite its contents in place (`self.file[path][:] = data[:]`,
with an advisory `print`) and return; otherwise delete it
(`del self.file[path]`).  When the object at the path is a group,
`ds.dtype` would raise AttributeError (never reached by this library). -/
def replace_compatible_dataset (f : HFile) (p : HPath) (data : DSData)
    (dtype : String) : Except String HFile :=
  let f := createGroupChain f p.dropLast
  if memberB f p then
    match alookup p f.datasets with
    | some ds =>
      if ds.dtype = dtype ∧ ds.data.shape = data.shape then
        -- "overwriting existing dataset"
        .ok { f with datasets := aupd p { ds with data := data } f.datasets }
      else
        .ok { f with datasets := aremove p f.datasets }
    | none => .error "AttributeError, object at path is a group"
  else
    .ok f

/-- `AbstractCremiFile._create_dataset`: run
`_replace_compatible_dataset`, then unconditionally call the engine's
`create_dataset` (note: also after the in-place overwrite, whose early
`return` only leaves `_replace_compatible_dataset`). -/
def abstract_create_dataset (f : HFile) (p : HPath) (data : DSData) (dtype : String)
    (compression : Option String) : Except String HFile :=
  match replace_compatible_dataset f p data dtype with
  | .error e => .error e
  | .ok f' => createDatasetPrim f' p data dtype compression none

/-- The chunk shape computed by `CremiN5._create_dataset`:
`chunks = [max(c, s) for c, s in zip(self.chunks, data.shape)]`. -/
def n5_chunks (chunks : List Nat) (shape : List Nat) : List Nat :=
  (chunks.zip shape).map (fun cs => max cs.1 cs.2)

/-- `CremiN5._create_dataset`: like the abstract version but passes the
recomputed chunk shape to the engine. -/
def cremiN5_create_dataset (f : HFile) (selfChunks : List Nat) (p : HPath)
    (data : DSData) (dtype : String) (compression : Option String) :
    Except String HFile :=
  match replace_compatible_dataset f p data dtype with
  | .error e => .error e
  | .ok f' => createDatasetPrim f' p data dtype compression
      (some (n5_chunks selfChunks data.shape))

/-- `AbstractCremiFile._spatial` (used by Backend A, `CremiFile`):
the identity on coordinate tuples. -/
def cremiFile_spatial : Loc → Loc := fun sequence => sequence

/-- `CremiN5._spatial`: `sequence[::-1]`, reversal of the tuple. -/
def cremiN5_spatial : Loc → Loc := fun sequence => sequence.reverse

/-- `CremiFile.__init__(filename, mode)`: opens the h5py file (mode `"w"`
truncates to a fresh file, other modes open the existing one) and, when
`mode == "w" or mode == "a"`, sets the root attribute
`file_format = "0.2"`. -/
def CremiFile_init (existing : HFile) (mode : String) : HFile :=
  let f := if mode = "w" then HFile.empty else existing
  if mode = "w" ∨ mode = "a" then setAttr f [] "file_format" (.str "0.2") else f

/-- The `Annotations` container (`cremi/Annotations.py`).  Field names
follow the source (the name-mangled `self.__ids`, `self.__types`,
`self.__locations` become `ids`, `types`, `locations`); `types`,
`locations` and `comments` are Python dicts, embedded as ordered
association lists with `aupd` update. -/
structure Annotations where
  ids : List Nat
  types : List (Nat × Utf8Bytes)
  locations : List (Nat × Loc)
  comments : List (Nat × Utf8Bytes)
  pre_post_partners : List (Nat × Nat)
  offset : Loc
deriving DecidableEq, Repr

/-- `Annotations.__init__(offset=(0.0, 0.0, 0.0))`. -/
def Annotations.new (offset : Loc) : Annotations :=
  ⟨[], [], [], [], [], offset⟩

/-- `Annotations.__check(id)`: `raise` when the id has no entry in the
types dict (in Python the raise of a bare string surfaces as an
immediate exception). -/
def Annotations.check (a : Annotations) (id : Nat) : Except String Unit :=
  if (alookup id a.types).isSome then .ok ()
  else .error ("there is no id " ++ toString id)

/-- `Annotations.add_annotation(id, type, location)`: appends the id to
the order (also when already present), overwrites type and location. -/
def Annotations.addAnnot (a : Annotations) (id : Nat) (type : String) (location : Loc) :
    Annotations :=
  { a with
    ids := a.ids ++ [id]
    types := aupd id (strEncode type) a.types
    locations := aupd id location a.locations }

/-- `Annotations.add_comment(id, comment)`. -/
def Annotations.addComment (a : Annotations) (id : Nat) (comment : String) :
    Except String Annotations :=
  match Annotations.check a id with
  | .error e => .error e
  | .ok _ => .ok { a with comments := aupd id (strEncode comment) a.comments }

/-- `Annotations.set_pre_post_partners(pre_id, post_id)`. -/
def Annotations.setPrePostPartners (a : Annotations) (pre_id post_id : Nat) :
    Except String Annotations :=
  match Annotations.check a pre_id with
  | .error e => .error e
  | .ok _ =>
    match Annotations.check a post_id with
    | .error e => .error e
    | .ok _ => .ok { a with pre_post_partners := a.pre_post_partners ++ [(pre_id, post_id)] }

/-- `Annotations.ids()`: `list(self.__ids)` (a copy of the order). -/
def Annotations.idsList (a : Annotations) : List Nat := a.ids

/-- `Annotations.types()`: `[self.__types[idx] for idx in self.__ids]`;
`none` models the KeyError a missing entry would raise. -/
def Annotations.typesList (a : Annotations) : Option (List Utf8Bytes) :=
  a.ids.mapM (fun idx => alookup idx a.types)

/-- `Annotations.locations()`: `[self.__locations[idx] for idx in self.__ids]`. -/
def Annotations.locationsList (a : Annotations) : Option (List Loc) :=
  a.ids.mapM (fun idx => alookup idx a.locations)

/-- `Annotations.get_annotation(id)`: `(self.__types[id], self.__locations[id])`
after the `__check`. -/
def Annotations.getAnnot (a : Annotations) (id : Nat) : Except String (Utf8Bytes × Loc) :=
  match Annotations.check a id with
  | .error e => .error e
  | .ok _ =>
    match alookup id a.types, alookup id a.locations with
    | some t, some l => .ok (t, l)
    | _, _ => .error "KeyError"

/-- Stable insertion of `x` into `acc` for a Bool strict-before test:
`x` goes after every element it is not strictly before (so elements with
equal keys keep their original relative order). -/
def insertStable {α : Type} (lt : α → α → Bool) (x : α) : List α → List α
  | [] => [x]
  | y :: ys => if lt x y then x :: y :: ys else y :: insertStable lt x ys

/-- A stable sort (the guarantee of Python's `list.sort`): elements are
inserted in their original order, each after all elements its key does
not strictly precede.  `reverse` flips the comparison, which is exactly
`list.sort(reverse=True)` (stable descending). -/
def pySortBy {α κ : Type} [LinearOrder κ] (key : α → κ) (reverse : Bool)
    (l : List α) : List α :=
  l.foldl
    (fun acc x =>
      insertStable (fun u v => if reverse then decide (key v < key u) else decide (key u < key v)) x acc)
    []

/-- The `full_key` closure of `Annotations.sort`: feeds the id together
with its type, location, and `self.comments.get(id_, '')` to the
caller-supplied key function. -/
def Annotations.fullKey {κ : Type} (key_fn : Nat → Utf8Bytes → Loc → Utf8Bytes → κ)
    (a : Annotations) (id_ : Nat) : κ :=
  key_fn id_ ((alookup id_ a.types).getD (strEncode ""))
    ((alookup id_ a.locations).getD [])
    ((alookup id_ a.comments).getD (strEncode ""))

/-- `Annotations.sort(key_fn, reverse, in_place)` with an explicit key
function.  The pair returned is (Python return value, state of the
receiver after the call): with `in_place=False` the receiver is
untouched and a deep copy—differing from the receiver only in the
sorted `__ids`—is returned; with `in_place=True` the receiver's
`__ids` are sorted in place and `None` is returned. -/
def Annotations.sortWithKey {κ : Type} [LinearOrder κ] (a : Annotations)
    (key_fn : Nat → Utf8Bytes → Loc → Utf8Bytes → κ) (reverse : Bool)
    (in_place : Bool) : Option Annotations × Annotations :=
  let sorted : Annotations :=
    { a with ids := pySortBy (Annotations.fullKey key_fn a) reverse a.ids }
  if in_place then (none, sorted) else (some sorted, a)

/-- `Annotations.sort` with `key_fn=None`: the default key is the id
itself. -/
def Annotations.sortDefault (a : Annotations) (reverse : Bool) (in_place : Bool) :
    Option Annotations × Annotations :=
  Annotations.sortWithKey a (fun id _ _ _ => id) reverse in_place

/-- Modelled from the spec: the `Volume` value object is imported from a
part of the repository that is not in the provided sources ("raw/labeled
array data, a resolution 3-tuple, an offset 3-tuple (default zero), an
optional free-text comment"); `Volume(dataset)` wraps the dataset's data
with the default metadata. -/
structure Volume where
  data : DSData
  resolution : Loc
  offset : Loc
  comment : Option String
deriving DecidableEq, Repr

/-- Modelled from the spec: `Volume(data)` with default zero offset. -/
def Volume.ofData (d : DSData) : Volume := ⟨d, [0, 0, 0], [0, 0, 0], none⟩

/-- `AbstractCremiFile.write_volume(volume, ds_name, dtype)`; `sp` is the
backend's `self._spatial` hook. -/
def write_volume (f : HFile) (sp : Loc → Loc) (volume : Volume) (ds_name : HPath)
    (dtype : String) : Except String HFile :=
  match abstract_create_dataset f ds_name volume.data dtype (some "gzip") with
  | .error e => .error e
  | .ok f1 =>
    let f2 := setAttr f1 ds_name "resolution" (.loc (sp volume.resolution))
    let f3 := setAttr f2 ds_name "offset" (.loc (sp volume.offset))
    .ok (match volume.comment with
      | some c => setAttr f3 ds_name "comment" (.str c)
      | none => f3)

/-- `AbstractCremiFile.read_volume(ds_name)`: wraps the dataset, requires
the `resolution` attribute (KeyError if absent), copies `offset` (zero
default) and `comment` when present. -/
def read_volume (f : HFile) (sp : Loc → Loc) (ds_name : HPath) : Except String Volume :=
  match alookup ds_name f.datasets with
  | none => .error "KeyError, no dataset"
  | some ds =>
    match getAttr f ds_name "resolution" with
    | some (.loc r) =>
      let vol := { Volume.ofData ds.data with resolution := sp r }
      let vol := match getAttr f ds_name "offset" with
        | some (.loc o) => { vol with offset := sp o }
        | _ => vol
      let vol := match getAttr f ds_name "comment" with
        | some (.str c) => { vol with comment := some c }
        | _ => vol
      .ok vol
    | _ => .error "KeyError, resolution"

/-- The comment target ids written by `write_annotations`: the loop
`for id_ in annotations.ids(): if id_ in annotations.comments: keys.append(id_)`
iterates the (possibly duplicate-containing) id order, not the comment
dict. -/
def commentKeys (a : Annotations) : List Nat :=
  a.ids.filter (fun id_ => (alookup id_ a.comments).isSome)

/-- The parallel comment values: `values.append(annotations.comments[id_])`. -/
def commentValues (a : Annotations) : List Utf8Bytes :=
  (commentKeys a).map (fun id_ => (alookup id_ a.comments).getD (strEncode ""))

/-- `AbstractCremiFile.write_annotations(annotations)`; `sp` is the
backend's `self._spatial` hook.  Returns the container after the write
(Python mutates `self.file`), or the first engine error raised. -/
def write_annotations (f : HFile) (sp : Loc → Loc) (a : Annotations) :
    Except String HFile :=
  if (Annotations.idsList a).length = 0 then .ok f
  else
    let f := createGroupChain f ["annotations"]
    let f := setAttr f ["annotations"] "offset" (.loc (sp a.offset))
    match abstract_create_dataset f ["annotations", "ids"]
        (.nats (Annotations.idsList a)) "uint64" none with
    | .error e => .error e
    | .ok f =>
      match Annotations.typesList a with
      | none => .error "KeyError, types"
      | some tys =>
        match abstract_create_dataset f ["annotations", "types"]
            (.texts tys) "unicode" (some "gzip") with
        | .error e => .error e
        | .ok f =>
          match Annotations.locationsList a with
          | none => .error "KeyError, locations"
          | some locs =>
            match abstract_create_dataset f ["annotations", "locations"]
                (.locs (locs.map sp)) "double" none with
            | .error e => .error e
            | .ok f =>
              let withComments : Except String HFile :=
                if a.comments.length > 0 then
                  match abstract_create_dataset f
                      ["annotations", "comments", "target_ids"]
                      (.nats (commentKeys a)) "uint64" none with
                  | .error e => .error e
                  | .ok f =>
                    abstract_create_dataset f
                      ["annotations", "comments", "comments"]
                      (.texts (commentValues a)) "unicode" none
                else .ok f
              match withComments with
              | .error e => .error e
              | .ok f =>
                if a.pre_post_partners.length > 0 then
                  abstract_create_dataset f
                    ["annotations", "presynaptic_site", "partners"]
                    (.pairs a.pre_post_partners) "uint64" none
                else .ok f

/-- Body of the annotation-rebuilding loop of `read_annotations`:
`annotations.add_annotation(idx, ann_type.decode("utf-8"), self._spatial(location))`. -/
def readAnnLoop (sp : Loc → Loc) (acc : Annotations) (itl : Nat × Utf8Bytes × Loc) :
    Annotations :=
  Annotations.addAnnot acc itl.1 (bytesDecode itl.2.1) (sp itl.2.2)

/-- Body of the comment-rebuilding loop of `read_annotations`:
`annotations.add_comment(id, comment.decode("utf-8"))`. -/
def readCommentLoop (acc : Annotations) (ic : Nat × Utf8Bytes) :
    Except String Annotations :=
  Annotations.addComment acc ic.1 (bytesDecode ic.2)

/-- Body of the partner-rebuilding loop of `read_annotations`:
`annotations.set_pre_post_partners(pre, post)`. -/
def readPartnerLoop (acc : Annotations) (pq : Nat × Nat) : Except String Annotations :=
  Annotations.setPrePostPartners acc pq.1 pq.2

/-- `AbstractCremiFile.read_annotations()`; `sp` is the backend's
`self._spatial` hook. -/
def read_annotations (f : HFile) (sp : Loc → Loc) : Except String Annotations :=
  let a := Annotations.new [0, 0, 0]
  if ¬ memberB f ["annotations"] then .ok a
  else
    let offset : Loc :=
      match getAttr f ["annotations"] "offset" with
      | some (.loc o) => sp o
      | _ => [0, 0, 0]
    let a := { a with offset := offset }
    match alookup ["annotations", "ids"] f.datasets,
        alookup ["annotations", "types"] f.datasets,
        alookup ["annotations", "locations"] f.datasets with
    | some dsIds, some dsTypes, some dsLocs =>
      let a := ((dsIds.data.asNats).zip ((dsTypes.data.asTexts).zip (dsLocs.data.asLocs))).foldl
        (readAnnLoop sp) a
      let withComments : Except String Annotations :=
        if memberB f ["annotations", "comments"] then
          match alookup ["annotations", "comments", "target_ids"] f.datasets,
              alookup ["annotations", "comments", "comments"] f.datasets with
          | some dsK, some dsV =>
            ((dsK.data.asNats).zip (dsV.data.asTexts)).foldlM readCommentLoop a
          | _, _ => .error "KeyError, comments"
        else .ok a
      match withComments with
      | .error e => .error e
      | .ok a =>
        if memberB f ["annotations", "presynaptic_site", "partners"] then
          match alookup ["annotations", "presynaptic_site", "partners"] f.datasets with
          | some dsP =>
            (dsP.data.asPairs).foldlM readPartnerLoop a
          | none => .error "KeyError, partners"
        else .ok a
    | _, _, _ => .error "KeyError, ids, types or locations"

/-- Modelled from the spec: the `Confidences` result type of
`read_neuron_ids_confidence` "is referenced but never defined in the
source" (the source marks it `FIXME Confidences is undefined`); per the
spec it is a "mapping from confidence level to set of ids" constructed
with `Confidences(num_levels=2)` and filled by `add_all(level, ids)`. -/
structure Confidences where
  num_levels : Nat
  table : List (Nat × List Nat)
deriving DecidableEq, Repr

/-- Modelled from the spec: a fresh empty level-to-ids mapping. -/
def Confidences.new (num_levels : Nat) : Confidences := ⟨num_levels, []⟩

/-- Modelled from the spec: `add_all(level, ids)` adds every id of the
run to the set held for `level`. -/
def Confidences.addAll (level : Nat) (idsRun : List Nat) (c : Confidences) :
    Confidences :=
  { c with table := aupd level ((alookup level c.table).getD [] ++ idsRun) c.table }

/-- The `while i < len(data)` loop of `read_neuron_ids_confidence`:
`level = data[i]; num_ids = data[i+1]; add_all(level, data[i+2:i+2+num_ids]);
i += 2 + num_ids` (a Python slice truncates at the end of the data; a
one-element tail would raise IndexError at `data[i]` for `num_ids`). -/
def parseConfStream : List Nat → Confidences → Except String Confidences
  | [], c => .ok c
  | [_], _ => .error "IndexError"
  | level :: num_ids :: rest, c =>
    parseConfStream (rest.drop num_ids) (Confidences.addAll level (rest.take num_ids) c)
termination_by data _ => data.length
decreasing_by
  simp only [List.length_cons, List.length_drop]
  omega

/-- `AbstractCremiFile.has_neuron_ids_confidence()` via `_has_volume`. -/
def has_neuron_ids_confidence (f : HFile) : Bool :=
  memberB f ["volumes", "labels", "neuron_ids_confidence"]

/-- `AbstractCremiFile.read_neuron_ids_confidence()`. -/
def read_neuron_ids_confidence (f : HFile) : Except String Confidences :=
  let confidences := Confidences.new 2
  if ¬ has_neuron_ids_confidence f then .ok confidences
  else
    match alookup ["volumes", "labels", "neuron_ids_confidence"] f.datasets with
    | some ds => parseConfStream ds.data.asNats confidences
    | none => .error "KeyError, confidence dataset"

/-- The flat on-disk encoding of a list of (level, ids-run) records:
`[level, count, id_1..id_count, level, count, ...]`. -/
def encodeConfRecords (recs : List (Nat × List Nat)) : List Nat :=
  (recs.map (fun r => r.1 :: r.2.length :: r.2)).flatten

/-- The data-model invariant of an `AnnotationSet` (spec section 3):
every id in the ordered-id sequence has a type and a location entry;
every comment key and every id referenced by a partner link exists in
the ordered-id sequence. -/
def AnnWF (a : Annotations) : Prop :=
  (∀ i ∈ a.ids, (alookup i a.types).isSome ∧ (alookup i a.locations).isSome)
  ∧ (∀ kv ∈ a.comments, kv.1 ∈ a.ids)
  ∧ (∀ pq ∈ a.pre_post_partners, pq.1 ∈ a.ids ∧ pq.2 ∈ a.ids)

instance (a : Annotations) : Decidable (AnnWF a) := by
  unfold AnnWF; infer_instance

/-- Strengthened invariant used for preservation proofs: additionally,
every key of the type and location dicts appears in the id order (true
of every reachable set, since only `add_annotation` touches them). -/
def AnnWFStrong (a : Annotations) : Prop :=
  AnnWF a
  ∧ (∀ kv ∈ a.types, kv.1 ∈ a.ids)
  ∧ (∀ kv ∈ a.locations, kv.1 ∈ a.ids)

/-- One mutating call on an `Annotations` object: the three mutators of
the lifecycle plus `sort` (with an arbitrary caller-supplied key
function into a linearly ordered key, here `Int`). -/
inductive AnnOp where
  | add (id : Nat) (type : String) (location : Loc)
  | comment (id : Nat) (text : String)
  | partners (pre_id post_id : Nat)
  | sortIds (key_fn : Nat → Utf8Bytes → Loc → Utf8Bytes → Int) (reverse in_place : Bool)

/-- Effect of one call on the receiver.  A call whose `__check` raises
leaves the object unchanged (the exception propagates before any
mutation); `sort(in_place=False)` also leaves the receiver unchanged. -/
def annStep (a : Annotations) : AnnOp → Annotations
  | .add id type location => Annotations.addAnnot a id type location
  | .comment id text =>
    match Annotations.addComment a id text with
    | .ok a' => a'
    | .error _ => a
  | .partners pre_id post_id =>
    match Annotations.setPrePostPartners a pre_id post_id with
    | .ok a' => a'
    | .error _ => a
  | .sortIds key_fn reverse in_place =>
    (Annotations.sortWithKey a key_fn reverse in_place).2

/-- Run a sequence of calls from a given starting object. -/
def annRun (start : Annotations) (ops : List AnnOp) : Annotations :=
  ops.foldl annStep start

/-- Bool test that an `Except` computation succeeded. -/
def exceptIsOk {eTy aTy : Type} : Except eTy aTy → Bool
  | .ok _ => true
  | .error _ => false

/-- The container produced by `write_annotations` on a fresh (empty)
container for a non-empty annotation set whose `types()`/`locations()`
lists are `tys`/`locs` (proved below in `write_annotations_empty_eq`). -/
def writtenFile (sp : Loc → Loc) (a : Annotations) (tys : List Utf8Bytes)
    (locs : List Loc) : HFile :=
  { groups :=
      [["annotations"]]
      ++ (if a.comments.length > 0 then [["annotations", "comments"]] else [])
      ++ (if a.pre_post_partners.length > 0 then [["annotations", "presynaptic_site"]] else [])
    datasets :=
      [(["annotations", "ids"], ⟨"uint64", none, none, .nats a.ids⟩),
       (["annotations", "types"], ⟨"unicode", some "gzip", none, .texts tys⟩),
       (["annotations", "locations"], ⟨"double", none, none, .locs (locs.map sp)⟩)]
      ++ (if a.comments.length > 0 then
            [(["annotations", "comments", "target_ids"], ⟨"uint64", none, none, .nats (commentKeys a)⟩),
             (["annotations", "comments", "comments"], ⟨"unicode", none, none, .texts (commentValues a)⟩)]
          else [])
      ++ (if a.pre_post_partners.length > 0 then
            [(["annotations", "presynaptic_site", "partners"], ⟨"uint64", none, none, .pairs a.pre_post_partners⟩)]
          else [])
    attrs := [((["annotations"], "offset"), .loc (sp a.offset))] }

/-- The example annotation set of spec section 8: two partnered synaptic
sites, one comment. -/
def exAnnSet : Annotations :=
  { ids := [1, 2]
    types := [(1, ⟨"presynaptic_site"⟩), (2, ⟨"postsynaptic_site"⟩)]
    locations := [(1, [10, 20, 30]), (2, [15, 20, 30])]
    comments := [(1, ⟨"near vesicle cluster"⟩)]
    pre_post_partners := [(1, 2)]
    offset := [0, 0, 0] }

/-- An annotation set in which id 7 was added twice (its second location
wins) and carries a comment: exercises the duplicate-id edge case. -/
def dupAnnSet : Annotations :=
  { ids := [7, 7, 8]
    types := [(7, ⟨"presynaptic_site"⟩), (8, ⟨"postsynaptic_site"⟩)]
    locations := [(7, [1, 2, 3]), (8, [4, 5, 6])]
    comments := [(7, ⟨"twice"⟩)]
    pre_post_partners := []
    offset := [0, 0, 0] }

/-!
Helper lemmas.
-/

theorem alookup_aupd {α β : Type} [DecidableEq α] (k j : α) (v : β) (m : List (α × β)) :
    alookup j (aupd k v m) = if j = k then some v else alookup j m := by
  induction m with
  | nil =>
    by_cases h : j = k
    · subst h; simp [aupd, alookup]
    · have h' : ¬ k = j := fun hh => h hh.symm
      simp [aupd, alookup, h, h']
  | cons hd tl ih =>
    obtain ⟨a, b⟩ := hd
    by_cases hak : a = k
    · subst hak
      simp only [aupd, if_pos rfl, alookup]
      by_cases haj : a = j
      · subst haj; simp
      · have h' : ¬ j = a := fun hh => haj hh.symm
        simp [alookup, haj, h']
    · simp only [aupd, if_neg hak, alookup]
      by_cases haj : a = j
      · have hjk : ¬ j = k := fun hh => hak (haj.trans hh)
        simp [haj, hjk]
      · simp [haj, ih]

theorem mem_aupd {α β : Type} [DecidableEq α] (k : α) (v : β) (m : List (α × β))
    (kv : α × β) : kv ∈ aupd k v m → kv = (k, v) ∨ kv ∈ m := by
  induction m with
  | nil => intro h; simpa [aupd] using h
  | cons hd tl ih =>
    obtain ⟨a, b⟩ := hd
    by_cases hak : a = k
    · subst hak
      intro h
      simp only [aupd, if_true, List.mem_cons, eq_self_iff_true, ite_true] at h
      rcases h with h | h
      · exact Or.inl h
      · exact Or.inr (List.mem_cons_of_mem _ h)
    · intro h
      simp only [aupd, List.mem_cons, if_neg hak] at h
      rcases h with h | h
      · exact Or.inr (by simp [h])
      · rcases ih h with h' | h'
        · exact Or.inl h'
        · exact Or.inr (List.mem_cons_of_mem _ h')

theorem alookup_isSome_exists_mem {α β : Type} [DecidableEq α] (k : α) (m : List (α × β)) :
    (alookup k m).isSome → ∃ v, (k, v) ∈ m := by
  induction m with
  | nil => intro h; simp [alookup] at h
  | cons hd tl ih =>
    obtain ⟨a, b⟩ := hd
    by_cases hak : a = k
    · subst hak
      exact fun _ => ⟨b, by simp⟩
    · intro h
      simp only [alookup, if_neg hak] at h
      rcases ih h with ⟨v, hv⟩
      exact ⟨v, List.mem_cons_of_mem _ hv⟩

theorem strEncode_bytesDecode (b : Utf8Bytes) : strEncode (bytesDecode b) = b := rfl

theorem insertStable_perm {α : Type} (lt : α → α → Bool) (x : α) (l : List α) :
    (insertStable lt x l).Perm (x :: l) := by
  induction l with
  | nil => simp [insertStable]
  | cons y ys ih =>
    by_cases h : lt x y
    · simp [insertStable, h]
    · simp only [insertStable, if_neg h]
      exact (ih.cons y).trans (List.Perm.swap x y ys)

theorem pySortBy_perm {α κ : Type} [LinearOrder κ] (key : α → κ) (reverse : Bool)
    (l : List α) : (pySortBy key reverse l).Perm l := by
  have main : ∀ (l : List α) (acc : List α),
      (l.foldl (fun acc x =>
        insertStable (fun u v => if reverse then decide (key v < key u) else decide (key u < key v)) x acc) acc).Perm
      (l ++ acc) := by
    intro l
    induction l with
    | nil => intro acc; simp
    | cons x xs ih =>
      intro acc
      have h1 := ih (insertStable (fun u v => if reverse then decide (key v < key u) else decide (key u < key v)) x acc)
      have h2 : (xs ++ insertStable (fun u v => if reverse then decide (key v < key u) else decide (key u < key v)) x acc).Perm
          (xs ++ (x :: acc)) :=
        List.Perm.append_left xs (insertStable_perm _ x acc)
      have h3 : (xs ++ (x :: acc)).Perm (x :: (xs ++ acc)) := List.perm_middle
      simpa using (h1.trans (h2.trans h3))
  simpa using main l []

/-- C1: the claimed dataset-write state machine fails on the code in the
PRESENT_COMPATIBLE state.  At a concrete container holding a compatible
dataset, `_replace_compatible_dataset` does overwrite the contents in
place, but `_create_dataset` then still calls the engine's
`create_dataset` at the same path — its early `return` only leaves the
helper — so the write raises "name already exists" instead of stopping
at the in-place overwrite.  The ABSENT → CREATE and
PRESENT_INCOMPATIBLE → DELETE → CREATE transitions do behave as claimed
(first and last conjunct). -/
theorem create_dataset_compatible_case_raises :
    (abstract_create_dataset HFile.empty ["volumes", "x"] (.nats [4, 5, 6]) "uint64" none
      = .ok ⟨[["volumes"]], [(["volumes", "x"], ⟨"uint64", none, none, .nats [4, 5, 6]⟩)], []⟩)
  ∧ (replace_compatible_dataset
        ⟨[["volumes"]], [(["volumes", "x"], ⟨"uint64", none, none, .nats [1, 2, 3]⟩)], []⟩
        ["volumes", "x"] (.nats [4, 5, 6]) "uint64"
      = .ok ⟨[["volumes"]], [(["volumes", "x"], ⟨"uint64", none, none, .nats [4, 5, 6]⟩)], []⟩)
  ∧ (abstract_create_dataset
        ⟨[["volumes"]], [(["volumes", "x"], ⟨"uint64", none, none, .nats [1, 2, 3]⟩)], []⟩
        ["volumes", "x"] (.nats [4, 5, 6]) "uint64" none
      = .error "unable to create dataset, name already exists")
  ∧ (abstract_create_dataset
        ⟨[["volumes"]], [(["volumes", "x"], ⟨"uint64", none, none, .nats [1, 2, 3]⟩)], []⟩
        ["volumes", "x"] (.nats [4, 5]) "uint64" none
      = .ok ⟨[["volumes"]], [(["volumes", "x"], ⟨"uint64", none, none, .nats [4, 5]⟩)], []⟩) :=
  ⟨rfl, rfl, rfl, rfl⟩

/-- C3 counterexample: a Backend B dataset creation with configured
chunks `[10]` and data of shape `[5]` computes chunk shape `[10]` — the
chunk dimension exceeds the data's shape dimension, because the code
takes `max(c, s)`, not a clamp. -/
theorem n5_chunk_exceeds_shape_counterexample :
    (cremiN5_create_dataset HFile.empty [10] ["v"] (.nats [1, 2, 3, 4, 5]) "uint64" none
      = .ok ⟨[], [(["v"], ⟨"uint64", none, some [10], .nats [1, 2, 3, 4, 5]⟩)], []⟩)
  ∧ n5_chunks [10] [5] = [10]
  ∧ DSData.shape (.nats [1, 2, 3, 4, 5]) = [5]
  ∧ ¬ (10 ≤ 5) :=
  ⟨rfl, rfl, rfl, by decide⟩

/-- C3 (amended): the chunk shape computed by Backend B's dataset
creation is the per-dimension `max` of the configured chunks and the
data's shape (over the zipped common length) — so each chunk dimension
is at least, not at most, the corresponding data-shape dimension. -/
theorem n5_chunks_at_least_shape (chunks shape : List Nat) (i : Nat)
    (h : i < (n5_chunks chunks shape).length) :
    (n5_chunks chunks shape).getD i 0 = max (chunks.getD i 0) (shape.getD i 0)
  ∧ shape.getD i 0 ≤ (n5_chunks chunks shape).getD i 0 := by
  induction chunks generalizing shape i with
  | nil => simp [n5_chunks] at h
  | cons c ct ih =>
    cases shape with
    | nil => simp [n5_chunks] at h
    | cons s st =>
      cases i with
      | zero => exact ⟨rfl, le_max_right c s⟩
      | succ n =>
        have h' : n < (n5_chunks ct st).length := by
          simpa [n5_chunks] using h
        simpa [n5_chunks] using ih st n h'

/-- C3 witness: the amended statement evaluated at chunks `[2]`,
shape `[7]`, dimension 0. -/
theorem n5_chunks_at_least_shape_witness :
    (n5_chunks [2] [7]).getD 0 0 = max (([2] : List Nat).getD 0 0) (([7] : List Nat).getD 0 0)
  ∧ ([7] : List Nat).getD 0 0 ≤ (n5_chunks [2] [7]).getD 0 0 :=
  n5_chunks_at_least_shape [2] [7] 0 (by decide)

/-- C5: `sort(key_fn, reverse, in_place=False)` operates on a copy and
returns it — the receiver (in particular the order `ids()` returns) is
unchanged, and the returned copy is exactly the receiver with its id
order sorted (the state `sort(..., in_place=True)` would produce);
`sort(..., in_place=True)` returns `None` and replaces the receiver's id
order with a permutation of it, leaving every other field (type,
location, comment mappings, partner links, offset) untouched.  Deep-copy
independence is automatic in this pure embedding: the receiver value is
returned unchanged. -/
theorem sort_copy_and_mutation_semantics {κ : Type} [LinearOrder κ] (a : Annotations)
    (key_fn : Nat → Utf8Bytes → Loc → Utf8Bytes → κ) (reverse : Bool) :
    (Annotations.sortWithKey a key_fn reverse false).2 = a
  ∧ Annotations.idsList ((Annotations.sortWithKey a key_fn reverse false).2)
      = Annotations.idsList a
  ∧ (Annotations.sortWithKey a key_fn reverse false).1
      = some ((Annotations.sortWithKey a key_fn reverse true).2)
  ∧ (Annotations.sortWithKey a key_fn reverse true).1 = none
  ∧ ((Annotations.sortWithKey a key_fn reverse true).2).ids.Perm a.ids
  ∧ ((Annotations.sortWithKey a key_fn reverse true).2).types = a.types
  ∧ ((Annotations.sortWithKey a key_fn reverse true).2).locations = a.locations
  ∧ ((Annotations.sortWithKey a key_fn reverse true).2).comments = a.comments
  ∧ ((Annotations.sortWithKey a key_fn reverse true).2).pre_post_partners = a.pre_post_partners
  ∧ ((Annotations.sortWithKey a key_fn reverse true).2).offset = a.offset := by
  refine ⟨rfl, rfl, rfl, rfl, ?_, rfl, rfl, rfl, rfl, rfl⟩
  exact pySortBy_perm _ _ _

/-- C8: every open of Backend A (`CremiFile.__init__`) in a
write-capable mode — per the spec's own gloss, the write/append modes
`"w"` and `"a"` — sets the root attribute `file_format` to the constant
string `"0.2"`. -/
theorem cremiFile_init_sets_format (existing : HFile) (mode : String)
    (h : mode = "w" ∨ mode = "a") :
    getAttr (CremiFile_init existing mode) [] "file_format" = some (.str "0.2") := by
  rcases h with h | h <;> subst h <;>
    simp [CremiFile_init, getAttr, setAttr, alookup_aupd]

/-- C8 witness: opening an empty container in append mode. -/
theorem cremiFile_init_sets_format_witness :
    getAttr (CremiFile_init HFile.empty "a") [] "file_format" = some (.str "0.2") :=
  cremiFile_init_sets_format HFile.empty "a" (Or.inr rfl)

/-- C6: Backend B's `_spatial` hook reverses the coordinate tuple, and
it is applied on every write and read of `resolution`, `offset` and
location rows (`write_volume`/`read_volume` wrap both attributes,
`write_annotations`/`read_annotations` wrap the offset and each
location).  Hence it is an involution (first conjunct, also lifted to
location lists in the third), a 3-tuple `(x, y, z)` is stored on-wire as
`(z, y, x)` (second conjunct, and the stored `resolution`/`offset`
attributes in the fourth), and a volume written through Backend B reads
back with its original `resolution` and `offset`. -/
theorem n5_axis_hook_involution (l : Loc) (x y z : Coord) (vol : Volume) (locs : List Loc) :
    cremiN5_spatial (cremiN5_spatial l) = l
  ∧ cremiN5_spatial [x, y, z] = [z, y, x]
  ∧ (locs.map cremiN5_spatial).map cremiN5_spatial = locs
  ∧ (∃ f', write_volume HFile.empty cremiN5_spatial vol ["volumes", "raw"] "uint8" = .ok f'
      ∧ getAttr f' ["volumes", "raw"] "resolution" = some (.loc vol.resolution.reverse)
      ∧ getAttr f' ["volumes", "raw"] "offset" = some (.loc vol.offset.reverse)
      ∧ ∃ v', read_volume f' cremiN5_spatial ["volumes", "raw"] = .ok v'
          ∧ v'.resolution = vol.resolution ∧ v'.offset = vol.offset ∧ v'.data = vol.data) := by
  refine ⟨List.reverse_reverse l, rfl, ?_, ?_⟩
  · have h : (cremiN5_spatial ∘ cremiN5_spatial) = id := funext fun t => List.reverse_reverse t
    simp [List.map_map, h]
  · obtain ⟨d, res, off, com⟩ := vol
    cases com with
    | none =>
      refine ⟨_, rfl, ?_⟩
      simp [getAttr, alookup, read_volume, Volume.ofData, cremiN5_spatial]
    | some c =>
      refine ⟨_, rfl, ?_⟩
      simp [getAttr, alookup, read_volume, Volume.ofData, cremiN5_spatial]

theorem write_annotations_empty_eq (sp : Loc → Loc) (a : Annotations)
    (tys : List Utf8Bytes) (locs : List Loc)
    (hids : a.ids ≠ [])
    (hT : Annotations.typesList a = some tys)
    (hL : Annotations.locationsList a = some locs) :
    write_annotations HFile.empty sp a = .ok (writtenFile sp a tys locs) := by
  have hlen : ¬ ((Annotations.idsList a).length = 0) := by
    simpa [Annotations.idsList, List.length_eq_zero] using hids
  by_cases hc : a.comments.length > 0 <;> by_cases hp : a.pre_post_partners.length > 0 <;>
    simp [write_annotations, hlen, hids, hT, hL, hc, hp, writtenFile,
      abstract_create_dataset, replace_compatible_dataset, createDatasetPrim,
      createGroupChain, chainPaths, createGroupTry, memberB, alookup, setAttr, aupd, Annotations.idsList,
      HFile.empty, List.range_succ]

theorem zip_map_pair {α β γ : Type} (T : α → β) (L : α → γ) (l : List α) :
    l.zip ((l.map T).zip (l.map L)) = l.map (fun i => (i, T i, L i)) := by
  induction l with
  | nil => rfl
  | cons x xs ih => simp [ih]

theorem zip_map_single {α β : Type} (g : α → β) (l : List α) :
    l.zip (l.map g) = l.map (fun x => (x, g x)) := by
  induction l with
  | nil => rfl
  | cons x xs ih => simp [ih]

theorem mapM_eq_map_getD {α β : Type} (g : α → Option β) (d : β) (l : List α)
    (h : ∀ x ∈ l, (g x).isSome) :
    l.mapM g = some (l.map (fun x => (g x).getD d)) := by
  rw [← List.mapM'_eq_mapM]
  induction l with
  | nil => rfl
  | cons x xs ih =>
    have hx := h x (by simp)
    obtain ⟨y, hy⟩ := Option.isSome_iff_exists.mp hx
    have ihx := ih (fun z hz => h z (by simp [hz]))
    simp [List.mapM', hy, ihx]

theorem readAnnFold_frame (sp : Loc → Loc) (ts : List (Nat × Utf8Bytes × Loc)) :
    ∀ acc : Annotations,
      (ts.foldl (readAnnLoop sp) acc).ids = acc.ids ++ ts.map (fun t => t.1)
    ∧ (ts.foldl (readAnnLoop sp) acc).comments = acc.comments
    ∧ (ts.foldl (readAnnLoop sp) acc).pre_post_partners = acc.pre_post_partners
    ∧ (ts.foldl (readAnnLoop sp) acc).offset = acc.offset := by
  induction ts with
  | nil => intro acc; simp
  | cons t rest ih =>
    intro acc
    have h := ih (readAnnLoop sp acc t)
    simp only [List.foldl_cons, List.map_cons] at *
    refine ⟨?_, ?_, ?_, ?_⟩
    · rw [h.1]; simp [readAnnLoop, Annotations.addAnnot]
    · rw [h.2.1]; simp [readAnnLoop, Annotations.addAnnot]
    · rw [h.2.2.1]; simp [readAnnLoop, Annotations.addAnnot]
    · rw [h.2.2.2]; simp [readAnnLoop, Annotations.addAnnot]

theorem readAnnFold_lookups (sp : Loc → Loc) (T : Nat → Utf8Bytes) (L : Nat → Loc)
    (ids : List Nat) :
    ∀ acc : Annotations,
      (∀ j, alookup j ((ids.map (fun i => (i, T i, L i))).foldl (readAnnLoop sp) acc).types
        = if j ∈ ids then some (strEncode (bytesDecode (T j))) else alookup j acc.types)
    ∧ (∀ j, alookup j ((ids.map (fun i => (i, T i, L i))).foldl (readAnnLoop sp) acc).locations
        = if j ∈ ids then some (sp (L j)) else alookup j acc.locations) := by
  induction ids with
  | nil => intro acc; simp
  | cons i rest ih =>
    intro acc
    have h := ih (readAnnLoop sp acc (i, T i, L i))
    simp only [List.map_cons, List.foldl_cons] at *
    constructor
    · intro j
      rw [h.1 j]
      by_cases hjr : j ∈ rest
      · simp [hjr]
      · by_cases hji : j = i
        · subst hji
          simp [hjr, readAnnLoop, Annotations.addAnnot, alookup_aupd]
        · simp [hjr, hji, readAnnLoop, Annotations.addAnnot, alookup_aupd]
    · intro j
      rw [h.2 j]
      by_cases hjr : j ∈ rest
      · simp [hjr]
      · by_cases hji : j = i
        · subst hji
          simp [hjr, readAnnLoop, Annotations.addAnnot, alookup_aupd]
        · simp [hjr, hji, readAnnLoop, Annotations.addAnnot, alookup_aupd]

theorem foldl_aupd_lookup {β : Type} (V : Nat → β) (keys : List Nat) :
    ∀ (m0 : List (Nat × β)) (j : Nat),
      alookup j (keys.foldl (fun m k => aupd k (V k) m) m0)
        = if j ∈ keys then some (V j) else alookup j m0 := by
  induction keys with
  | nil => intro m0 j; simp
  | cons k ks ih =>
    intro m0 j
    rw [List.foldl_cons, ih]
    by_cases hjk : j ∈ ks
    · simp [hjk]
    · by_cases hj : j = k
      · subst hj
        simp [hjk, alookup_aupd]
      · simp [hjk, hj, alookup_aupd]

theorem readCommentFold_ok (C : Nat → Utf8Bytes) (keys : List Nat) :
    ∀ b : Annotations, (∀ k ∈ keys, (alookup k b.types).isSome) →
      (keys.map (fun k => (k, C k))).foldlM readCommentLoop b
        = .ok { b with comments := (keys.foldl
            (fun m k => aupd k (strEncode (bytesDecode (C k))) m) b.comments) } := by
  induction keys with
  | nil => intro b _; rfl
  | cons k ks ih =>
    intro b hb
    have hk := hb k (by simp)
    have hstep : readCommentLoop b (k, C k)
        = .ok { b with comments := aupd k (strEncode (bytesDecode (C k))) b.comments } := by
      simp [readCommentLoop, Annotations.addComment, Annotations.check, hk]
    have hrest := ih { b with comments := aupd k (strEncode (bytesDecode (C k))) b.comments }
      (fun z hz => hb z (by simp [hz]))
    simp only [List.map_cons, List.foldlM_cons, hstep, List.foldl_cons]
    simpa using hrest

theorem readPartnerFold_ok (pairs : List (Nat × Nat)) :
    ∀ b : Annotations,
      (∀ pq ∈ pairs, (alookup pq.1 b.types).isSome ∧ (alookup pq.2 b.types).isSome) →
      pairs.foldlM readPartnerLoop b
        = .ok { b with pre_post_partners := b.pre_post_partners ++ pairs } := by
  induction pairs with
  | nil => intro b _; simp only [List.foldlM_nil, List.append_nil]; rfl
  | cons pq rest ih =>
    intro b hb
    have h1 := (hb pq (by simp)).1
    have h2 := (hb pq (by simp)).2
    have hstep : readPartnerLoop b pq
        = .ok { b with pre_post_partners := b.pre_post_partners ++ [pq] } := by
      simp [readPartnerLoop, Annotations.setPrePostPartners, Annotations.check, h1, h2]
    have hrest := ih { b with pre_post_partners := b.pre_post_partners ++ [pq] }
      (fun z hz => hb z (by simp [hz]))
    simp only [List.foldlM_cons, hstep]
    simpa using hrest

theorem parseConfStream_encode (recs : List (Nat × List Nat)) :
    ∀ c, parseConfStream (encodeConfRecords recs) c
      = .ok (recs.foldl (fun c r => Confidences.addAll r.1 r.2 c) c) := by
  induction recs with
  | nil => intro c; simp [encodeConfRecords, parseConfStream]
  | cons r rest ih =>
    intro c
    obtain ⟨l, ids⟩ := r
    have henc : encodeConfRecords ((l, ids) :: rest)
        = l :: ids.length :: (ids ++ encodeConfRecords rest) := by
      simp [encodeConfRecords]
    rw [henc]
    have hstep : parseConfStream (l :: ids.length :: (ids ++ encodeConfRecords rest)) c
        = parseConfStream ((ids ++ encodeConfRecords rest).drop ids.length)
            (Confidences.addAll l ((ids ++ encodeConfRecords rest).take ids.length) c) := by
      simp [parseConfStream]
    rw [hstep, List.take_left, List.drop_left, ih]
    simp

/-- C9: `read_neuron_ids_confidence` returns the empty level-to-ids
structure when the confidence dataset is absent (first conjunct), and on
a stored flat stream `[level, count, id_1..id_count, level, count, ...]`
it consumes the stream to exhaustion, adding each run of ids under its
confidence level (second conjunct: the result is exactly the fold of
`add_all` over the encoded records).  The `Confidences` result type is
undefined in the available source and is modelled from the spec. -/
theorem read_confidence_groups_runs (recs : List (Nat × List Nat)) :
    read_neuron_ids_confidence HFile.empty = .ok (Confidences.new 2)
  ∧ read_neuron_ids_confidence
      ⟨[["volumes"], ["volumes", "labels"]],
       [(["volumes", "labels", "neuron_ids_confidence"],
         ⟨"uint64", none, none, .nats (encodeConfRecords recs)⟩)], []⟩
    = .ok (recs.foldl (fun c r => Confidences.addAll r.1 r.2 c) (Confidences.new 2)) := by
  constructor
  · rfl
  · simp only [read_neuron_ids_confidence, has_neuron_ids_confidence, memberB, alookup,
      DSData.asNats]
    simp
    rw [parseConfStream_encode]

/-- C4: `add_comment`, `set_pre_post_partners` (in either argument
position) and `get_annotation` all fail immediately—via `__check`'s
raise—on an id with no entry in the types dict, i.e. an id never passed
to `add_annotation` (first conjunct); on known ids, `add_comment`
sets/overwrites the comment (second conjunct) and
`set_pre_post_partners` appends the ordered pair unconditionally, so
duplicates are permitted (third conjunct). -/
theorem annot_id_not_found_checks (a : Annotations) (i j : Nat) (c : String) :
    ((alookup i a.types).isSome = false →
        exceptIsOk (Annotations.addComment a i c) = false
      ∧ exceptIsOk (Annotations.setPrePostPartners a i j) = false
      ∧ exceptIsOk (Annotations.setPrePostPartners a j i) = false
      ∧ exceptIsOk (Annotations.getAnnot a i) = false)
  ∧ ((alookup i a.types).isSome = true →
        Annotations.addComment a i c
          = .ok { a with comments := aupd i (strEncode c) a.comments })
  ∧ ((alookup i a.types).isSome = true → (alookup j a.types).isSome = true →
        Annotations.setPrePostPartners a i j
          = .ok { a with pre_post_partners := a.pre_post_partners ++ [(i, j)] }) := by
  refine ⟨?_, ?_, ?_⟩
  · intro h
    refine ⟨?_, ?_, ?_, ?_⟩
    · simp [Annotations.addComment, Annotations.check, h, exceptIsOk]
    · simp [Annotations.setPrePostPartners, Annotations.check, h, exceptIsOk]
    · by_cases hj : (alookup j a.types).isSome
      · simp [Annotations.setPrePostPartners, Annotations.check, h, hj, exceptIsOk]
      · simp [Annotations.setPrePostPartners, Annotations.check, h, hj, exceptIsOk]
    · simp [Annotations.getAnnot, Annotations.check, h, exceptIsOk]
  · intro h
    simp [Annotations.addComment, Annotations.check, h]
  · intro hi hj
    simp [Annotations.setPrePostPartners, Annotations.check, hi, hj]

/-- C4 witness: on the example set (ids 1 and 2 present, id 5 never
added), `add_comment(5, ...)` fails, `add_comment(1, ...)` overwrites,
and `set_pre_post_partners(2, 2)` appends the (self-)pair. -/
theorem annot_id_not_found_checks_witness :
    exceptIsOk (Annotations.addComment exAnnSet 5 "x") = false
  ∧ Annotations.addComment exAnnSet 1 "x"
      = .ok { exAnnSet with comments := aupd 1 (strEncode "x") exAnnSet.comments }
  ∧ Annotations.setPrePostPartners exAnnSet 2 2
      = .ok { exAnnSet with pre_post_partners := exAnnSet.pre_post_partners ++ [(2, 2)] } :=
  ⟨((annot_id_not_found_checks exAnnSet 5 1 "x").1 (by decide)).1,
   (annot_id_not_found_checks exAnnSet 1 2 "x").2.1 (by decide),
   (annot_id_not_found_checks exAnnSet 2 2 "x").2.2 (by decide) (by decide)⟩

/-- C10: when an id occurs k times in the id order and has a comment,
the comment filter of `write_annotations` iterates the
duplicate-containing id order, so the id is written k times into
`/annotations/comments/target_ids` (first conjunct: its count among the
written target ids equals its count in the id order) with its comment
repeated in the parallel values array (second conjunct), and on a fresh
container the written target_ids dataset is exactly this filtered id
order (third conjunct). -/
theorem comments_follow_duplicate_id_order (a : Annotations) (i : Nat)
    (h : (alookup i a.comments).isSome) :
    List.count i (commentKeys a) = List.count i a.ids
  ∧ commentValues a
      = (commentKeys a).map (fun j => (alookup j a.comments).getD (strEncode ""))
  ∧ (∀ sp tys locs, a.ids ≠ [] → Annotations.typesList a = some tys →
      Annotations.locationsList a = some locs → a.comments.length > 0 →
      write_annotations HFile.empty sp a = .ok (writtenFile sp a tys locs)
      ∧ ∃ ds, alookup ["annotations", "comments", "target_ids"]
            ((writtenFile sp a tys locs).datasets) = some ds
          ∧ ds.data = .nats (commentKeys a)) := by
  refine ⟨?_, rfl, ?_⟩
  · exact List.count_filter h
  · intro sp tys locs h1 h2 h3 hc
    refine ⟨write_annotations_empty_eq sp a tys locs h1 h2 h3, ?_⟩
    refine ⟨⟨"uint64", none, none, .nats (commentKeys a)⟩, ?_, rfl⟩
    simp [writtenFile, hc, alookup]

/-- C10 witness: on `dupAnnSet` (id 7 added twice, with a comment), the
target ids written for comments contain 7 twice. -/
theorem comments_follow_duplicate_id_order_witness :
    List.count 7 (commentKeys dupAnnSet) = List.count 7 dupAnnSet.ids
  ∧ List.count 7 (commentKeys dupAnnSet) = 2
  ∧ (write_annotations HFile.empty cremiFile_spatial dupAnnSet
        = .ok (writtenFile cremiFile_spatial dupAnnSet
            [⟨"presynaptic_site"⟩, ⟨"presynaptic_site"⟩, ⟨"postsynaptic_site"⟩]
            [[1, 2, 3], [1, 2, 3], [4, 5, 6]])
      ∧ ∃ ds, alookup ["annotations", "comments", "target_ids"]
            ((writtenFile cremiFile_spatial dupAnnSet
              [⟨"presynaptic_site"⟩, ⟨"presynaptic_site"⟩, ⟨"postsynaptic_site"⟩]
              [[1, 2, 3], [1, 2, 3], [4, 5, 6]]).datasets) = some ds
          ∧ ds.data = .nats (commentKeys dupAnnSet)) :=
  ⟨(comments_follow_duplicate_id_order dupAnnSet 7 (by decide)).1,
   by decide,
   (comments_follow_duplicate_id_order dupAnnSet 7 (by decide)).2.2
     cremiFile_spatial _ _ (by decide) rfl rfl (by decide)⟩

theorem annStep_preserves (a : Annotations) (op : AnnOp) (h : AnnWFStrong a) :
    AnnWFStrong (annStep a op) := by
  obtain ⟨⟨h1, h2, h3⟩, h4, h5⟩ := h
  cases op with
  | add i t l =>
    refine ⟨⟨?_, ?_, ?_⟩, ?_, ?_⟩ <;>
      simp only [annStep, Annotations.addAnnot]
    · intro j hj
      by_cases hji : j = i
      · constructor <;> simp [alookup_aupd, hji]
      · have hj' : j ∈ a.ids := by
          rcases List.mem_append.mp hj with hj0 | hj0
          · exact hj0
          · simp at hj0; exact absurd hj0 hji
        have hh := h1 j hj'
        constructor <;> simp [alookup_aupd, hji, hh.1, hh.2]
    · intro kv hkv
      exact List.mem_append_left _ (h2 kv hkv)
    · intro pq hpq
      exact ⟨List.mem_append_left _ (h3 pq hpq).1, List.mem_append_left _ (h3 pq hpq).2⟩
    · intro kv hkv
      rcases mem_aupd _ _ _ _ hkv with he | hm
      · simp [he]
      · exact List.mem_append_left _ (h4 kv hm)
    · intro kv hkv
      rcases mem_aupd _ _ _ _ hkv with he | hm
      · simp [he]
      · exact List.mem_append_left _ (h5 kv hm)
  | comment i c =>
    by_cases hik : (alookup i a.types).isSome
    · have hstep : annStep a (.comment i c)
          = { a with comments := aupd i (strEncode c) a.comments } := by
        simp [annStep, Annotations.addComment, Annotations.check, hik]
      rw [hstep]
      refine ⟨⟨h1, ?_, h3⟩, h4, h5⟩
      intro kv hkv
      rcases mem_aupd _ _ _ _ hkv with he | hm
      · obtain ⟨v, hv⟩ := alookup_isSome_exists_mem _ _ hik
        have hi : i ∈ a.ids := h4 (i, v) hv
        simp [he, hi]
      · exact h2 kv hm
    · have hstep : annStep a (.comment i c) = a := by
        simp [annStep, Annotations.addComment, Annotations.check, hik]
      rw [hstep]; exact ⟨⟨h1, h2, h3⟩, h4, h5⟩
  | partners p q =>
    by_cases hp : (alookup p a.types).isSome
    · by_cases hq : (alookup q a.types).isSome
      · have hstep : annStep a (.partners p q)
            = { a with pre_post_partners := a.pre_post_partners ++ [(p, q)] } := by
          simp [annStep, Annotations.setPrePostPartners, Annotations.check, hp, hq]
        rw [hstep]
        refine ⟨⟨h1, h2, ?_⟩, h4, h5⟩
        intro pq hpq
        rcases List.mem_append.mp hpq with hm | hm
        · exact h3 pq hm
        · obtain ⟨vp, hvp⟩ := alookup_isSome_exists_mem _ _ hp
          obtain ⟨vq, hvq⟩ := alookup_isSome_exists_mem _ _ hq
          simp at hm
          subst hm
          exact ⟨h4 (p, vp) hvp, h4 (q, vq) hvq⟩
      · have hstep : annStep a (.partners p q) = a := by
          simp [annStep, Annotations.setPrePostPartners, Annotations.check, hp, hq]
        rw [hstep]; exact ⟨⟨h1, h2, h3⟩, h4, h5⟩
    · have hstep : annStep a (.partners p q) = a := by
        simp [annStep, Annotations.setPrePostPartners, Annotations.check, hp]
      rw [hstep]; exact ⟨⟨h1, h2, h3⟩, h4, h5⟩
  | sortIds k rev ip =>
    cases ip with
    | false =>
      have hstep : annStep a (.sortIds k rev false) = a := by
        simp [annStep, Annotations.sortWithKey]
      rw [hstep]; exact ⟨⟨h1, h2, h3⟩, h4, h5⟩
    | true =>
      have hstep : annStep a (.sortIds k rev true)
          = { a with ids := pySortBy (Annotations.fullKey k a) rev a.ids } := by
        simp [annStep, Annotations.sortWithKey]
      rw [hstep]
      have hperm := pySortBy_perm (Annotations.fullKey k a) rev a.ids
      refine ⟨⟨?_, ?_, ?_⟩, ?_, ?_⟩
      · intro j hj
        exact h1 j (hperm.mem_iff.mp hj)
      · intro kv hkv
        exact hperm.mem_iff.mpr (h2 kv hkv)
      · intro pq hpq
        exact ⟨hperm.mem_iff.mpr (h3 pq hpq).1, hperm.mem_iff.mpr (h3 pq hpq).2⟩
      · intro kv hkv
        exact hperm.mem_iff.mpr (h4 kv hkv)
      · intro kv hkv
        exact hperm.mem_iff.mpr (h5 kv hkv)

/-- C7: every `Annotations` object reachable from an empty set (any
starting offset) by any sequence of `add_annotation`, `add_comment`,
`set_pre_post_partners` and `sort` calls satisfies the data-model
invariant: every id in the ordered-id sequence has a type and a
location entry, and every comment key and every partner-link id exists
in the ordered-id sequence. -/
theorem annot_ops_preserve_invariants (off : Loc) (ops : List AnnOp) :
    AnnWF (annRun (Annotations.new off) ops) := by
  have base : AnnWFStrong (Annotations.new off) := by
    refine ⟨⟨?_, ?_, ?_⟩, ?_, ?_⟩ <;> intro x hx <;> simp [Annotations.new] at hx
  have main : ∀ (ops : List AnnOp) (a : Annotations),
      AnnWFStrong a → AnnWFStrong (annRun a ops) := by
    intro ops
    induction ops with
    | nil => intro a h; exact h
    | cons op rest ih =>
      intro a h
      exact ih _ (annStep_preserves a op h)
  exact (main ops _ base).1

/-- C2 (amended): for every AnnotationSet satisfying the data-model
invariant, `write_annotations` followed by `read_annotations` on a fresh
container (through any backend hook `sp` that is an involution, which
both backends' hooks are) round trips: when the set is non-empty the
result has the identical id order (hence identical ids as a set),
identical per-id type and location, identical offset, identical comment
mapping, and the identical partner-link sequence in order.  When the set
is empty the write is a no-op and the read returns the empty set with
zero offset — so the offset of an empty set is NOT recovered, which is
the one correction to the claim (see
`roundtrip_empty_offset_counterexample`). -/
theorem annotations_roundtrip (sp : Loc → Loc) (a : Annotations)
    (hsp : ∀ l, sp (sp l) = l) (hwf : AnnWF a) :
    (a.ids = [] →
        write_annotations HFile.empty sp a = .ok HFile.empty
      ∧ read_annotations HFile.empty sp = .ok (Annotations.new [0, 0, 0]))
  ∧ (a.ids ≠ [] → ∃ f' a',
        write_annotations HFile.empty sp a = .ok f'
      ∧ read_annotations f' sp = .ok a'
      ∧ a'.ids = a.ids
      ∧ (∀ i ∈ a.ids, alookup i a'.types = alookup i a.types
            ∧ alookup i a'.locations = alookup i a.locations)
      ∧ a'.offset = a.offset
      ∧ (∀ i, alookup i a'.comments = alookup i a.comments)
      ∧ a'.pre_post_partners = a.pre_post_partners) := by
  obtain ⟨hAll, hCom, hPart⟩ := hwf
  constructor
  · intro h
    constructor
    · simp [write_annotations, Annotations.idsList, h]
    · rfl
  · intro hne
    have hT : Annotations.typesList a
        = some (a.ids.map (fun i => (alookup i a.types).getD (strEncode ""))) :=
      mapM_eq_map_getD _ _ _ (fun i hi => (hAll i hi).1)
    have hL : Annotations.locationsList a
        = some (a.ids.map (fun i => (alookup i a.locations).getD [])) :=
      mapM_eq_map_getD _ _ _ (fun i hi => (hAll i hi).2)
    have hw := write_annotations_empty_eq sp a _ _ hne hT hL
    by_cases hc : a.comments.length > 0
    · -- some comments
      obtain ⟨hlT, hlL⟩ := (readAnnFold_lookups sp
        (fun i => (alookup i a.types).getD (strEncode ""))
        (fun i => sp ((alookup i a.locations).getD [])) a.ids)
        { ids := [], types := [], locations := [], comments := [],
          pre_post_partners := [], offset := sp (sp a.offset) }
      obtain ⟨hfIds, hfCom, hfPart, hfOff⟩ := (readAnnFold_frame sp
        (a.ids.map (fun i =>
          (i, (alookup i a.types).getD (strEncode ""), sp ((alookup i a.locations).getD [])))))
        { ids := [], types := [], locations := [], comments := [],
          pre_post_partners := [], offset := sp (sp a.offset) }
      have hcomfold := readCommentFold_ok
        (fun id_ => (alookup id_ a.comments).getD (strEncode "")) (commentKeys a)
        ((a.ids.map (fun i =>
          (i, (alookup i a.types).getD (strEncode ""), sp ((alookup i a.locations).getD [])))).foldl
          (readAnnLoop sp)
          { ids := [], types := [], locations := [], comments := [],
            pre_post_partners := [], offset := sp (sp a.offset) })
        (by
          intro k hk
          have hkin : k ∈ a.ids := (List.mem_filter.mp hk).1
          rw [hlT k]
          simp [hkin])
      -- lookups in the rebuilt comment dict
      have hcmlook : ∀ j, alookup j ((commentKeys a).foldl
          (fun m k => aupd k (strEncode (bytesDecode
            ((fun id_ => (alookup id_ a.comments).getD (strEncode "")) k))) m)
          (((a.ids.map (fun i =>
            (i, (alookup i a.types).getD (strEncode ""), sp ((alookup i a.locations).getD [])))).foldl
            (readAnnLoop sp)
            { ids := [], types := [], locations := [], comments := [],
              pre_post_partners := [], offset := sp (sp a.offset) }).comments))
          = alookup j a.comments := by
        intro j
        rw [foldl_aupd_lookup]
        by_cases hjk : j ∈ commentKeys a
        · have hjsome : (alookup j a.comments).isSome :=
            (List.mem_filter.mp hjk).2
          obtain ⟨v, hv⟩ := Option.isSome_iff_exists.mp hjsome
          simp [hjk, hv, strEncode_bytesDecode]
        · have hnone : alookup j a.comments = none := by
            by_contra hcon
            have hjsome : (alookup j a.comments).isSome := by
              cases hx : alookup j a.comments with
              | none => exact absurd hx hcon
              | some v => simp [hx]
            obtain ⟨v, hv⟩ := alookup_isSome_exists_mem j a.comments hjsome
            have hjin : j ∈ a.ids := hCom (j, v) hv
            exact hjk (List.mem_filter.mpr ⟨hjin, hjsome⟩)
          rw [hfCom]
          simp [hjk, hnone, alookup]
      by_cases hp : a.pre_post_partners.length > 0
      · -- comments and partners
        have hpartfold := readPartnerFold_ok a.pre_post_partners
          ({ ((a.ids.map (fun i =>
            (i, (alookup i a.types).getD (strEncode ""), sp ((alookup i a.locations).getD [])))).foldl
            (readAnnLoop sp)
            { ids := [], types := [], locations := [], comments := [],
              pre_post_partners := [], offset := sp (sp a.offset) }) with
            comments := ((commentKeys a).foldl
              (fun m k => aupd k (strEncode (bytesDecode
                ((fun id_ => (alookup id_ a.comments).getD (strEncode "")) k))) m)
              (((a.ids.map (fun i =>
            (i, (alookup i a.types).getD (strEncode ""), sp ((alookup i a.locations).getD [])))).foldl
            (readAnnLoop sp)
            { ids := [], types := [], locations := [], comments := [],
              pre_post_partners := [], offset := sp (sp a.offset) })).comments) })
          (by
            intro pq hpq
            constructor
            · simp [hlT, (hPart pq hpq).1]
            · simp [hlT, (hPart pq hpq).2])
        have hread : read_annotations
            (writtenFile sp a (a.ids.map (fun i => (alookup i a.types).getD (strEncode "")))
              (a.ids.map (fun i => (alookup i a.locations).getD []))) sp
            = .ok { ({ ((a.ids.map (fun i =>
            (i, (alookup i a.types).getD (strEncode ""), sp ((alookup i a.locations).getD [])))).foldl
            (readAnnLoop sp)
            { ids := [], types := [], locations := [], comments := [],
              pre_post_partners := [], offset := sp (sp a.offset) }) with
            comments := ((commentKeys a).foldl
              (fun m k => aupd k (strEncode (bytesDecode
                ((fun id_ => (alookup id_ a.comments).getD (strEncode "")) k))) m)
              (((a.ids.map (fun i =>
            (i, (alookup i a.types).getD (strEncode ""), sp ((alookup i a.locations).getD [])))).foldl
            (readAnnLoop sp)
            { ids := [], types := [], locations := [], comments := [],
              pre_post_partners := [], offset := sp (sp a.offset) })).comments) }) with
                pre_post_partners := (({ ((a.ids.map (fun i =>
            (i, (alookup i a.types).getD (strEncode ""), sp ((alookup i a.locations).getD [])))).foldl
            (readAnnLoop sp)
            { ids := [], types := [], locations := [], comments := [],
              pre_post_partners := [], offset := sp (sp a.offset) }) with
            comments := ((commentKeys a).foldl
              (fun m k => aupd k (strEncode (bytesDecode
                ((fun id_ => (alookup id_ a.comments).getD (strEncode "")) k))) m)
              (((a.ids.map (fun i =>
            (i, (alookup i a.types).getD (strEncode ""), sp ((alookup i a.locations).getD [])))).foldl
            (readAnnLoop sp)
            { ids := [], types := [], locations := [], comments := [],
              pre_post_partners := [], offset := sp (sp a.offset) })).comments) }).pre_post_partners ++ a.pre_post_partners) } := by
          simp [read_annotations, writtenFile, hc, hp, memberB, alookup, getAttr,
            DSData.asNats, DSData.asTexts, DSData.asLocs, DSData.asPairs, List.map_map,
            zip_map_pair, Annotations.new, commentValues, zip_map_single, hcomfold, hpartfold]
        refine ⟨_, _, hw, hread, ?_, ?_, ?_, ?_, ?_⟩
        · simp only []
          simp [hfIds, List.map_map, Function.comp_def]
        · intro i hi
          constructor
          · obtain ⟨v, hv⟩ := Option.isSome_iff_exists.mp (hAll i hi).1
            simp only [hlT]
            simp [hi, hv, strEncode_bytesDecode]
          · obtain ⟨v, hv⟩ := Option.isSome_iff_exists.mp (hAll i hi).2
            simp only [hlL]
            simp [hi, hv, hsp]
        · simp only [hfOff]
          simp [hsp]
        · intro i
          exact hcmlook i
        · simp only []
          simp [hfPart]
      · -- comments, no partners
        have hpnil : a.pre_post_partners = [] := by
          simpa [List.length_eq_zero] using hp
        have hread : read_annotations
            (writtenFile sp a (a.ids.map (fun i => (alookup i a.types).getD (strEncode "")))
              (a.ids.map (fun i => (alookup i a.locations).getD []))) sp
            = .ok ({ ((a.ids.map (fun i =>
            (i, (alookup i a.types).getD (strEncode ""), sp ((alookup i a.locations).getD [])))).foldl
            (readAnnLoop sp)
            { ids := [], types := [], locations := [], comments := [],
              pre_post_partners := [], offset := sp (sp a.offset) }) with
            comments := ((commentKeys a).foldl
              (fun m k => aupd k (strEncode (bytesDecode
                ((fun id_ => (alookup id_ a.comments).getD (strEncode "")) k))) m)
              (((a.ids.map (fun i =>
            (i, (alookup i a.types).getD (strEncode ""), sp ((alookup i a.locations).getD [])))).foldl
            (readAnnLoop sp)
            { ids := [], types := [], locations := [], comments := [],
              pre_post_partners := [], offset := sp (sp a.offset) })).comments) }) := by
          simp [read_annotations, writtenFile, hc, hpnil, memberB, alookup, getAttr,
            DSData.asNats, DSData.asTexts, DSData.asLocs, List.map_map,
            zip_map_pair, Annotations.new, commentValues, zip_map_single, hcomfold]
        refine ⟨_, _, hw, hread, ?_, ?_, ?_, ?_, ?_⟩
        · simp only []
          simp [hfIds, List.map_map, Function.comp_def]
        · intro i hi
          constructor
          · obtain ⟨v, hv⟩ := Option.isSome_iff_exists.mp (hAll i hi).1
            simp only [hlT]
            simp [hi, hv, strEncode_bytesDecode]
          · obtain ⟨v, hv⟩ := Option.isSome_iff_exists.mp (hAll i hi).2
            simp only [hlL]
            simp [hi, hv, hsp]
        · simp only [hfOff]
          simp [hsp]
        · intro i
          exact hcmlook i
        · simp only []
          simp [hfPart, hpnil]
    · by_cases hp : a.pre_post_partners.length > 0
      · -- no comments, some partners
        have hcnil : a.comments = [] := by
          simpa [List.length_eq_zero] using hc
        obtain ⟨hlT, hlL⟩ := (readAnnFold_lookups sp
          (fun i => (alookup i a.types).getD (strEncode ""))
          (fun i => sp ((alookup i a.locations).getD [])) a.ids)
          { ids := [], types := [], locations := [], comments := [],
            pre_post_partners := [], offset := sp (sp a.offset) }
        obtain ⟨hfIds, hfCom, hfPart, hfOff⟩ := (readAnnFold_frame sp
          (a.ids.map (fun i =>
            (i, (alookup i a.types).getD (strEncode ""), sp ((alookup i a.locations).getD [])))))
          { ids := [], types := [], locations := [], comments := [],
            pre_post_partners := [], offset := sp (sp a.offset) }
        have hpartfold := readPartnerFold_ok a.pre_post_partners
          ((a.ids.map (fun i =>
            (i, (alookup i a.types).getD (strEncode ""), sp ((alookup i a.locations).getD [])))).foldl
            (readAnnLoop sp)
            { ids := [], types := [], locations := [], comments := [],
              pre_post_partners := [], offset := sp (sp a.offset) })
          (by
            intro pq hpq
            constructor
            · rw [hlT pq.1]
              simp [(hPart pq hpq).1]
            · rw [hlT pq.2]
              simp [(hPart pq hpq).2])
        have hread : read_annotations
            (writtenFile sp a (a.ids.map (fun i => (alookup i a.types).getD (strEncode "")))
              (a.ids.map (fun i => (alookup i a.locations).getD []))) sp
            = .ok { ((a.ids.map (fun i =>
                (i, (alookup i a.types).getD (strEncode ""), sp ((alookup i a.locations).getD [])))).foldl
                (readAnnLoop sp)
                { ids := [], types := [], locations := [], comments := [],
                  pre_post_partners := [], offset := sp (sp a.offset) }) with
                pre_post_partners := (((a.ids.map (fun i =>
                  (i, (alookup i a.types).getD (strEncode ""), sp ((alookup i a.locations).getD [])))).foldl
                  (readAnnLoop sp)
                  { ids := [], types := [], locations := [], comments := [],
                    pre_post_partners := [], offset := sp (sp a.offset) }).pre_post_partners
                  ++ a.pre_post_partners) } := by
          simp [read_annotations, writtenFile, hcnil, hp, memberB, alookup, getAttr,
            DSData.asNats, DSData.asTexts, DSData.asLocs, DSData.asPairs, List.map_map,
            zip_map_pair, Annotations.new, hpartfold]
        refine ⟨_, _, hw, hread, ?_, ?_, ?_, ?_, ?_⟩
        · rw [hfIds]
          simp [List.map_map, Function.comp_def]
        · intro i hi
          constructor
          · rw [hlT i]
            obtain ⟨v, hv⟩ := Option.isSome_iff_exists.mp (hAll i hi).1
            simp [hi, hv, strEncode_bytesDecode]
          · rw [hlL i]
            obtain ⟨v, hv⟩ := Option.isSome_iff_exists.mp (hAll i hi).2
            simp [hi, hv, hsp]
        · rw [hfOff]
          exact hsp a.offset
        · intro i
          rw [hfCom]
          simp [hcnil, alookup]
        · rw [hfPart]
          simp
      · -- no comments, no partners
        have hcnil : a.comments = [] := by
          simpa [List.length_eq_zero] using hc
        have hpnil : a.pre_post_partners = [] := by
          simpa [List.length_eq_zero] using hp
        have hread : read_annotations
            (writtenFile sp a (a.ids.map (fun i => (alookup i a.types).getD (strEncode "")))
              (a.ids.map (fun i => (alookup i a.locations).getD []))) sp
            = .ok ((a.ids.map (fun i =>
                (i, (alookup i a.types).getD (strEncode ""), sp ((alookup i a.locations).getD [])))).foldl
                (readAnnLoop sp)
                { ids := [], types := [], locations := [], comments := [],
                  pre_post_partners := [], offset := sp (sp a.offset) }) := by
          simp [read_annotations, writtenFile, hcnil, hpnil, memberB, alookup, getAttr,
            DSData.asNats, DSData.asTexts, DSData.asLocs, List.map_map, zip_map_pair,
            Annotations.new]
        refine ⟨_, _, hw, hread, ?_, ?_, ?_, ?_, ?_⟩
        · rw [((readAnnFold_frame sp _) _).1]
          simp [List.map_map, Function.comp_def]
        · intro i hi
          obtain ⟨hlT, hlL⟩ := (readAnnFold_lookups sp
            (fun i => (alookup i a.types).getD (strEncode ""))
            (fun i => sp ((alookup i a.locations).getD [])) a.ids)
            { ids := [], types := [], locations := [], comments := [],
              pre_post_partners := [], offset := sp (sp a.offset) }
          constructor
          · rw [hlT i]
            obtain ⟨v, hv⟩ := Option.isSome_iff_exists.mp (hAll i hi).1
            simp [hi, hv, strEncode_bytesDecode]
          · rw [hlL i]
            obtain ⟨v, hv⟩ := Option.isSome_iff_exists.mp (hAll i hi).2
            simp [hi, hv, hsp]
        · rw [((readAnnFold_frame sp _) _).2.2.2]
          exact hsp a.offset
        · intro i
          rw [((readAnnFold_frame sp _) _).2.1]
          simp [hcnil, alookup]
        · rw [((readAnnFold_frame sp _) _).2.2.1]
          simp [hpnil]


/-- C2 counterexample: the claim as stated fails at N = 0 with a nonzero
offset — `write_annotations` is a no-op on an empty set, so the set's
offset `[1, 2, 3]` is lost and `read_annotations` returns the zero
offset. -/
theorem roundtrip_empty_offset_counterexample :
    write_annotations HFile.empty cremiFile_spatial
      { ids := [], types := [], locations := [], comments := [],
        pre_post_partners := [], offset := [1, 2, 3] } = .ok HFile.empty
  ∧ read_annotations HFile.empty cremiFile_spatial = .ok (Annotations.new [0, 0, 0])
  ∧ ((Annotations.new [0, 0, 0]).offset = ([1, 2, 3] : Loc) → False) :=
  ⟨rfl, rfl, by decide⟩

/-- C2 witness: the round trip evaluated on the example scenario of the
spec (two partnered synaptic sites, one comment) through Backend A's
identity hook. -/
theorem annotations_roundtrip_witness :
    ∃ f' a', write_annotations HFile.empty cremiFile_spatial exAnnSet = .ok f'
      ∧ read_annotations f' cremiFile_spatial = .ok a'
      ∧ a'.ids = exAnnSet.ids
      ∧ (∀ i ∈ exAnnSet.ids, alookup i a'.types = alookup i exAnnSet.types
            ∧ alookup i a'.locations = alookup i exAnnSet.locations)
      ∧ a'.offset = exAnnSet.offset
      ∧ (∀ i, alookup i a'.comments = alookup i exAnnSet.comments)
      ∧ a'.pre_post_partners = exAnnSet.pre_post_partners :=
  (annotations_roundtrip cremiFile_spatial exAnnSet (fun _ => rfl) (by decide)).2 (by decide)

/-- C5 witness: the copy/mutation semantics of `sort` evaluated on the
example set with the default (id) key. -/
theorem sort_copy_and_mutation_semantics_witness :
    (Annotations.sortWithKey exAnnSet (fun i _ _ _ => i) false false).2 = exAnnSet
  ∧ ((Annotations.sortWithKey exAnnSet (fun i _ _ _ => i) false true).2).ids.Perm exAnnSet.ids :=
  ⟨(sort_copy_and_mutation_semantics exAnnSet (fun i _ _ _ => i) false).1,
   (sort_copy_and_mutation_semantics exAnnSet (fun i _ _ _ => i) false).2.2.2.2.1⟩
